import Mathlib

/-!
Verification development for the quantile summary (src/quantile/summary.go) and
the signature sampler (src/sampler/signature.go) of the datadog-trace-agent
repository.

The skiplist is modelled by its level-0 chain: a node list ordered the way
Skiplist.Insert orders it (the search advances while the next value is at most
the inserted value, so a new entry lands after every entry whose value is at
most its own).  All quantile-summary observables (N, Quantile, BySlices, the
serialized payload) read only the level-0 chain, so this is a faithful model of
everything those operations can see.  The skiplist height/level machinery is
modelled separately (SkiplistH below) for the bounds-safety claim.

Floating point: the Go code computes rank cut-offs with float64 expressions
int(2 * EPSILON * float64(N)), int(EPSILON * float64(N)),
int(1.0 / float64(2.0 * EPSILON)) and int(q * float64(N) + 0.5) with
EPSILON = 0.01.  With EPSILON read as the rational 1/100 these are the exact
integer floors 2N/100, N/100, 50 and the floor of qN + 1/2.  For every N in
the ranges exercised here (and in fact for every N below 2^50) the float64
computation rounds to the same integer, because the relative error of the
float64 value of 0.01 is about 2e-17, far below the distance of the exact
products from the nearest unfavourable integer boundary; the concrete inputs
used in the counterexample theorems were checked against IEEE-754 semantics.
-/

/-- GK tuple held in a skiplist node: observed value, weight g, rank slack
delta, and the span ids that collapsed into the tuple (Entry in summary.go). -/
structure Entry where
  V : Int
  G : Int
  Delta : Int
  Samples : List Nat
deriving DecidableEq, Repr

/-- Zero value of the Go Entry struct: the payload carried by the skiplist
head sentinel node (SkiplistNode allocated in NewSkiplist with no value). -/
def headEntry : Entry := { V := 0, G := 0, Delta := 0, Samples := [] }

/-- Level-0 effect of Skiplist.Insert: the search loop advances while
e.V is at least the next value, so the new entry is placed after every
entry whose value is at most e.V. -/
def skInsert (e : Entry) : List Entry → List Entry
  | [] => [e]
  | x :: xs => if x.V ≤ e.V then x :: skInsert e xs else e :: x :: xs

/-- Quantile summary: level-0 entry chain plus the observation counter N
(Summary in summary.go; the EncodedData cache field is represented by the
wire payload type summaryWire below). -/
structure Summary where
  data : List Entry
  N : Nat
deriving DecidableEq, Repr

/-- NewSummary: empty skiplist, N = 0. -/
def newSummary : Summary := { data := [], N := 0 }

/-- One sweep of Summary.compress, fuel-indexed so that the recursion is
structural (each step consumes exactly one node of the chain, so fuel equal
to the chain length always suffices).  The three branches are, in order, the
equal-value merge (which reassigns nt.G to t.G after pushing nt.G into the
missing accumulator and adding the updated accumulator to nt.Delta), the band
merge, and the no-merge case that only flushes the accumulator into nt.G.
A positive accumulator is discarded when the sweep runs off the end, exactly
as in the Go loop. -/
def compressAux : Nat → Int → Int → List Entry → List Entry
  | 0, _, _, l => l
  | _ + 1, _, _, [] => []
  | _ + 1, _, _, [t] => [t]
  | fuel + 1, epsN, missing, t :: nt :: rest =>
    if t.V = nt.V then
      compressAux fuel epsN (missing + nt.G)
        ({ V := nt.V, G := t.G, Delta := nt.Delta + (missing + nt.G),
           Samples := nt.Samples ++ t.Samples } :: rest)
    else if t.G + nt.G + missing + nt.Delta < epsN then
      compressAux fuel epsN 0
        ({ V := nt.V, G := nt.G + t.G + missing, Delta := nt.Delta,
           Samples := nt.Samples ++ t.Samples } :: rest)
    else
      t :: compressAux fuel epsN 0 ({ nt with G := nt.G + missing } :: rest)

/-- Summary.compress: epsN is int(2 * EPSILON * float64(N)) = 2N/100. -/
def Summary.compress (s : Summary) : Summary :=
  { data := compressAux s.data.length (Int.ofNat (2 * s.N / 100)) 0 s.data,
    N := s.N }

/-- Summary.Insert: build the unit tuple, insert it into the skiplist,
increment N, overwrite the new node's Delta with int(2 * EPSILON * float64(N))
when the node is neither first nor last on level 0 (prev is not the head and
next is not nil), and run compress whenever N is a multiple of
int(1.0 / float64(2.0 * EPSILON)) = 50. -/
def Summary.Insert (s : Summary) (v : Int) (t : Nat) : Summary :=
  let e : Entry := { V := v, G := 1, Delta := 0, Samples := [t] }
  let pos := (s.data.takeWhile (fun x => decide (x.V ≤ e.V))).length
  let l := skInsert e s.data
  let n := s.N + 1
  let l' :=
    if 0 < pos ∧ pos + 1 < l.length then
      l.set pos { e with Delta := Int.ofNat (2 * n / 100) }
    else l
  let s' : Summary := { data := l', N := n }
  if n % 50 = 0 then s'.compress else s'

/-- A summary built by a sequence of Summary.Insert calls from NewSummary. -/
def buildSummary (ops : List (Int × Nat)) : Summary :=
  ops.foldl (fun s p => s.Insert p.1 p.2) newSummary

/-- Traversal loop of Summary.Quantile: rmin accumulates the g weights; the
element is chosen by the two threshold tests against the successor.  none
models the final panic, which is reachable only when the chain is empty. -/
def quantLoop (rel : Int) : Int → List Entry → Option (Int × List Nat)
  | _, [] => none
  | rmin, t :: rest =>
    let rmin' := rmin + t.G
    match rest with
    | [] => some (t.V, t.Samples)
    | n :: _ =>
      if rel < rmin' + n.G + n.Delta then
        if rel < rmin' + n.G then some (t.V, t.Samples)
        else some (n.V, n.Samples)
      else quantLoop rel rmin' rest

/-- Target rank of Summary.Quantile: r = int(q * float64(N) + 0.5), the floor
of qN + 1/2 (the truncation equals the floor since q is nonnegative on the
documented domain). -/
def rankOfQuantile (q : ℚ) (N : Nat) : Int := ⌊q * (N : ℚ) + 1 / 2⌋

/-- Summary.Quantile: epsN = int(EPSILON * float64(N)) = N/100. -/
def Summary.Quantile (s : Summary) (q : ℚ) : Option (Int × List Nat) :=
  quantLoop (rankOfQuantile q s.N + Int.ofNat (s.N / 100)) 0 s.data

/-- SummarySlice returned by Summary.BySlices. -/
structure SummarySlice where
  Start : Int
  End : Int
  Weight : Int
  Samples : List Nat
deriving DecidableEq, Repr

/-- Loop of Summary.BySlices: last starts at the head sentinel, so the first
slice starts at the sentinel's zero value. -/
def bySlicesLoop (last : Entry) : List Entry → List SummarySlice
  | [] => []
  | cur :: rest =>
    { Start := last.V, End := cur.V, Weight := cur.G + cur.Delta - 1,
      Samples := cur.Samples } :: bySlicesLoop cur rest

/-- Summary.BySlices. -/
def Summary.BySlices (s : Summary) : List SummarySlice :=
  bySlicesLoop headEntry s.data

/-- Logical payload shared by both wire formats (the private summary type of
summary.go): the flattened EncodedData array and the counter n. -/
structure summaryWire where
  EncodedData : List Entry
  n : Nat
deriving DecidableEq, Repr

/-- Flattening loop shared by MarshalJSON and GobEncode: curr starts at
s.data.head itself, so the sentinel's zero Entry is emitted first, followed by
the data entries in chain order. -/
def Summary.flatten (s : Summary) : summaryWire :=
  { EncodedData := headEntry :: s.data, n := s.N }

/-- MarshalJSON emits the flattened payload as the JSON object. -/
def Summary.MarshalJSON (s : Summary) : summaryWire := s.flatten

/-- GobEncode emits the same flattened payload in the binary format. -/
def Summary.GobEncode (s : Summary) : summaryWire := s.flatten

/-- Rebuild loop shared by UnmarshalJSON and GobDecode: a fresh skiplist is
populated by Skiplist.Insert on every decoded entry in payload order,
preserving the stored fields. -/
def rebuildData (es : List Entry) : List Entry :=
  es.foldl (fun acc e => skInsert e acc) []

/-- Summary.UnmarshalJSON.  The byte-level JSON parse is modelled by an
Option payload: none is a malformed payload, for which json.Unmarshal reports
an error that the method returns before touching the receiver; on success the
receiver is replaced by the decoded counter and the rebuilt skiplist.  The
first component is the returned error. -/
def Summary.UnmarshalJSON (s : Summary) (b : Option summaryWire) :
    Option String × Summary :=
  match b with
  | none => (some "json unmarshal error", s)
  | some w => (none, { data := rebuildData w.EncodedData, N := w.n })

/-- Summary.GobDecode: same structure as UnmarshalJSON over the binary
format; the decoder error is returned before the receiver is written. -/
def Summary.GobDecode (s : Summary) (b : Option summaryWire) :
    Option String × Summary :=
  match b with
  | none => (some "gob decode error", s)
  | some w => (none, { data := rebuildData w.EncodedData, N := w.n })

/-- Iteration of Summary.Merge over the donor skiplist: curElt starts at
s2.data.head (the sentinel itself), and every visited node's value is passed
to Skiplist.Insert on the receiver. -/
def mergeWalk (acc : List Entry) : List Entry → List Entry
  | [] => acc
  | e :: rest => mergeWalk (skInsert e acc) rest

/-- Summary.Merge: early return when the donor is empty, otherwise add the
donor's N, insert every node value starting from the donor's head sentinel,
and compress once. -/
def Summary.Merge (s other : Summary) : Summary :=
  if other.N = 0 then s
  else
    Summary.compress
      { data := mergeWalk s.data (headEntry :: other.data),
        N := s.N + other.N }

/-- Merge as claim C4 describes it: only the entries held in the donor's
skiplist are inserted (no sentinel value), then one compress.  This definition
follows the claim's words and is compared against Summary.Merge. -/
def Summary.MergeClaimed (s other : Summary) : Summary :=
  if other.N = 0 then s
  else
    Summary.compress
      { data := other.data.foldl (fun acc e => skInsert e acc) s.data,
        N := s.N + other.N }

/-- Sum of the g fields over a chain. -/
def sumG (l : List Entry) : Int := (l.map Entry.G).sum

/-- Input stream refuting the rank-approximation claim: 25 observations each
of the values 1, 2, 3, 4 in ascending order (span ids 0..99). -/
def c1Inputs : List (Int × Nat) :=
  (List.range 100).map (fun i => ((i / 25 + 1 : Nat), i))

/-- Input stream refuting sum preservation: the value 7 inserted 50 times. -/
def c3Inputs : List (Int × Nat) := (List.range 50).map (fun i => ((7 : Int), i))

set_option maxRecDepth 100000

/-- The target rank at q = 0 is 0 for every N. -/
theorem rankOfQuantile_zero (N : Nat) : rankOfQuantile 0 N = 0 := by
  simp only [rankOfQuantile, zero_mul, zero_add]
  norm_num

/-- C1: refuted on the code.  After inserting 25 copies each of 1, 2, 3, 4
(N = 100, EPSILON * N = 1), Quantile at q = 51/100 targets rank
floor(qN + 0.5) = 51 but returns the value 4, whose ranks in the inserted
stream are 76..100 (75 inserted values are smaller): every rank of the
returned value is at least 76, exceeding the target rank 51 by more than
ceil(EPSILON * N) = 1.  The compress sweep had discarded g weight in its
equal-value branch, so the traversal's rank estimates no longer cover N. -/
theorem c1_rank_bug :
    (buildSummary c1Inputs).N = 100 ∧
    rankOfQuantile (51 / 100) 100 = 51 ∧
    ((buildSummary c1Inputs).Quantile (51 / 100)).map Prod.fst = some 4 ∧
    (c1Inputs.filter (fun p => decide (p.1 < 4))).length = 75 ∧
    (76 : Int) - 51 > 1 := by
  have hN : (buildSummary c1Inputs).N = 100 := by decide
  have hr : rankOfQuantile (51 / 100) 100 = 51 := by
    norm_num [rankOfQuantile]
  refine ⟨hN, hr, ?_, by decide, by decide⟩
  show (quantLoop (rankOfQuantile (51 / 100) (buildSummary c1Inputs).N +
      Int.ofNat ((buildSummary c1Inputs).N / 100)) 0
      (buildSummary c1Inputs).data).map Prod.fst = some 4
  rw [hN, hr]
  decide

/-- Concrete summary for the round-trip counterexample: one Insert(5, 10). -/
def c2Summary : Summary := buildSummary [((5 : Int), 10)]

/-- Its round trip through MarshalJSON and UnmarshalJSON. -/
def c2Roundtrip : Summary :=
  (c2Summary.UnmarshalJSON (some c2Summary.MarshalJSON)).2

/-- C2: refuted on the code.  The flattening loop of MarshalJSON starts at the
skiplist head sentinel, so the encoded data array carries a leading zero
Entry; UnmarshalJSON re-inserts it as a real tuple.  For the summary holding
the single observation (5, span 10), the round trip keeps N but gains the
tuple (0, 0, 0, []): Quantile(0) changes from (5, [10]) to (0, []) and
BySlices gains the slice (0, 0, -1, []). -/
theorem c2_roundtrip_bug :
    c2Roundtrip.N = c2Summary.N ∧
    c2Roundtrip.data = headEntry :: c2Summary.data ∧
    c2Summary.Quantile 0 = some (5, [10]) ∧
    c2Roundtrip.Quantile 0 = some (0, []) ∧
    c2Summary.BySlices ≠ c2Roundtrip.BySlices := by
  refine ⟨by decide, by decide, ?_, ?_, by decide⟩
  · show quantLoop (rankOfQuantile 0 c2Summary.N +
        Int.ofNat (c2Summary.N / 100)) 0 c2Summary.data = some (5, [10])
    rw [rankOfQuantile_zero]
    decide
  · show quantLoop (rankOfQuantile 0 c2Roundtrip.N +
        Int.ofNat (c2Roundtrip.N / 100)) 0 c2Roundtrip.data = some (0, [])
    rw [rankOfQuantile_zero]
    decide

/-- C3: refuted on the code.  After 50 insertions of the value 7 the compress
pass fires; each equal-value merge reassigns nt.G to t.G while pushing the
lost weight into the missing accumulator, and the accumulator is discarded
when the sweep ends, so the surviving chain holds total g weight 1 while
N = 50. -/
theorem c3_sumg_bug :
    (buildSummary c3Inputs).N = 50 ∧
    sumG (buildSummary c3Inputs).data = 1 ∧
    sumG (buildSummary c3Inputs).data ≠ ((buildSummary c3Inputs).N : Int) := by
  refine ⟨by decide, by decide, by decide⟩

/-- Receiver for the Merge counterexample: one Insert(5, span 1). -/
def c4Receiver : Summary := buildSummary [((5 : Int), 1)]

/-- Donor for the Merge counterexample: one Insert(9, span 2). -/
def c4Donor : Summary := buildSummary [((9 : Int), 2)]

/-- C4: refuted on the code.  Merge iterates the donor skiplist starting at
the head sentinel, so besides the donor's real entries it also inserts the
sentinel's zero Entry into the receiver.  Merging the summary {(9, g=1)} into
{(5, g=1)} yields three tuples, led by (0, 0, 0, []), rather than the two the
claim describes, and Quantile(0) on the merged summary returns the never
inserted value 0. -/
theorem c4_merge_bug :
    c4Receiver.Merge c4Donor ≠ c4Receiver.MergeClaimed c4Donor ∧
    (c4Receiver.Merge c4Donor).data =
      headEntry :: (c4Receiver.MergeClaimed c4Donor).data ∧
    (c4Receiver.Merge c4Donor).Quantile 0 = some (0, []) ∧
    (c4Receiver.MergeClaimed c4Donor).Quantile 0 = some (5, [1]) := by
  refine ⟨by decide, by decide, ?_, ?_⟩
  · show quantLoop (rankOfQuantile 0 (c4Receiver.Merge c4Donor).N +
        Int.ofNat ((c4Receiver.Merge c4Donor).N / 100)) 0
        (c4Receiver.Merge c4Donor).data = some (0, [])
    rw [rankOfQuantile_zero]
    decide
  · show quantLoop (rankOfQuantile 0 (c4Receiver.MergeClaimed c4Donor).N +
        Int.ofNat ((c4Receiver.MergeClaimed c4Donor).N / 100)) 0
        (c4Receiver.MergeClaimed c4Donor).data = some (5, [1])
    rw [rankOfQuantile_zero]
    decide

/-- Span fields read by the sampler.  The string fields are modelled as byte
lists; Error is the status field whose low byte is hashed. -/
structure Span where
  TraceID : Nat
  ParentID : Nat
  Service : List Nat
  Name : List Nat
  Resource : List Nat
  Error : Nat
deriving DecidableEq, Repr

/-- One step of the 32-bit FNV-1a hash used by hash/fnv: xor the byte in,
multiply by the prime, reduce modulo 2^32. -/
def fnv32aStep (h b : Nat) : Nat := ((h ^^^ b % 256) * 16777619) % 4294967296

/-- 32-bit FNV-1a over a byte sequence, offset basis 2166136261. -/
def fnv32a (bytes : List Nat) : Nat := bytes.foldl fnv32aStep 2166136261

/-- computeSpanHash: FNV-1a over service, name and the single error byte. -/
def computeSpanHash (sp : Span) : Nat :=
  fnv32a (sp.Service ++ sp.Name ++ [sp.Error % 256])

/-- computeRootHash: FNV-1a over service, name, resource and the error
byte. -/
def computeRootHash (sp : Span) : Nat :=
  fnv32a (sp.Service ++ sp.Name ++ sp.Resource ++ [sp.Error % 256])

/-- getRoot: scan the trace from the end for the last span with ParentID 0;
fall back to the last span.  On an empty trace the fallback reads
trace[len(trace)-1] = trace[-1], an index-out-of-range panic, modelled by
none (getLast? of the empty list). -/
def getRoot (trace : List Span) : Option Span :=
  match trace.reverse.find? (fun sp => sp.ParentID == 0) with
  | some sp => some sp
  | none => trace.getLast?

/-- Ascending insertion used to model sort.Sort on the span-hash slice; the
dedup and xor steps below depend only on the sorted value sequence, which any
correct sort produces. -/
def insertSorted (x : Nat) : List Nat → List Nat
  | [] => [x]
  | y :: ys => if x ≤ y then x :: y :: ys else y :: insertSorted x ys

/-- SortHashes: ascending sort of the hash slice. -/
def sortHashes (l : List Nat) : List Nat := l.foldr insertSorted []

/-- In-place dedup loop of ComputeSignature after the sort: keep every
element that differs from the last kept one. -/
def dedupLoop (last : Nat) : List Nat → List Nat
  | [] => []
  | x :: xs => if x ≠ last then x :: dedupLoop x xs else dedupLoop last xs

/-- ComputeSignature: root hash of getRoot, then a hash slice pre-sized to
len(trace) zero slots with the per-span hashes appended after them (the
faithful quirk of make followed by append), sorted, deduplicated starting
from element 0, and xor-folded into the root hash.  none models the panics on
an empty trace: getRoot indexes trace[-1], and the dedup start spanHashes[0]
reads an empty slice. -/
def computeSignature (trace : List Span) : Option Nat :=
  match getRoot trace with
  | none => none
  | some root =>
    let spanHashes := List.replicate trace.length 0 ++ trace.map computeSpanHash
    match sortHashes spanHashes with
    | [] => none
    | x :: xs =>
      some ((x :: dedupLoop x xs).foldl (fun h v => v ^^^ h) (computeRootHash root))

/-- SignatureSampler state: last-seen seconds by signature, the buffer of
sampled traces, and the three tunables.  Times and scores are modelled as
rationals standing for the float64 values. -/
structure SignatureSampler where
  lastTSBySignature : Nat → Option ℚ
  sampledTraces : List (List Span)
  sMin : ℚ
  theta : ℚ
  jitter : ℚ

/-- GetTimeScore.  The square root of math.Sqrt is an arbitrary real-valued
function of the ratio delta/theta; it is passed in as the parameter sq, so
every theorem below holds for the actual float64 square root as well. -/
def GetTimeScore (sq : ℚ → ℚ) (s : SignatureSampler) (sig : Nat) (now : ℚ) : ℚ :=
  match s.lastTSBySignature sig with
  | none => 5
  | some ts =>
    let delta := now - ts
    if delta ≤ 0 then 0 else min (sq (delta / s.theta)) 5

/-- GetScore: the time score with multiplicative jitter, u being the uniform
draw of rand.Float64 in the unit interval. -/
def GetScore (sq : ℚ → ℚ) (s : SignatureSampler) (sig : Nat) (now u : ℚ) : ℚ :=
  GetTimeScore sq s sig now * (1 + s.jitter * (1 - 2 * u))

/-- AddTrace: compute the signature, score it, and when the score exceeds
sMin append the trace to the buffer and refresh the last-seen time of the
signature; otherwise leave the state untouched.  none propagates the panic of
ComputeSignature on the empty trace (the debug log line would also index
trace[0]). -/
def AddTrace (sq : ℚ → ℚ) (s : SignatureSampler) (trace : List Span)
    (now u : ℚ) : Option SignatureSampler :=
  match computeSignature trace with
  | none => none
  | some sig =>
    if GetScore sq s sig now u > s.sMin then
      some { s with
        sampledTraces := s.sampledTraces ++ [trace],
        lastTSBySignature := fun x => if x = sig then some now else s.lastTSBySignature x }
    else some s

/-- Flush: return the buffer and reset it; nothing else changes. -/
def Flush (s : SignatureSampler) : List (List Span) × SignatureSampler :=
  (s.sampledTraces, { s with sampledTraces := [] })

/-- Skiplist height cap (maxHeight in summary.go): the head node owns exactly
maxHeight = 31 forward pointers, indices 0 through 30. -/
def maxHeight : Nat := 31

/-- Trailing-ones count of the PRNG draw, the level chosen by
Skiplist.Insert; fuel-indexed (32 suffices for any 31-bit draw). -/
def levelOfAux : Nat → Nat → Nat
  | 0, _ => 0
  | fuel + 1, n => if n % 2 = 1 then levelOfAux fuel (n / 2) + 1 else 0

/-- Level drawn from a rand.Int31 outcome. -/
def levelOf (n : Nat) : Nat := levelOfAux 32 n

/-- Height-and-chain state of the skiplist (NewSkiplist starts at height 0
with an empty chain). -/
structure SkiplistH where
  height : Nat
  elems : List Entry
deriving DecidableEq, Repr

/-- Skiplist.Insert with its level logic: draw the level as the number of
trailing set bits of a 31-bit PRNG outcome; when it exceeds the current
height, bump the height by one and clamp the level to it.  The search descent
then starts by reading head.next[height]; head.next has maxHeight = 31 slots,
so the access is in bounds exactly when the updated height is below 31, and
none models the index-out-of-range panic otherwise.  (Interior nodes are
always read at indices below their own pointer-array length, and Remove only
iterates over the arrays of the node itself, so the head access is the only
place a bound can fail.) -/
def SkiplistH.insert (s : SkiplistH) (draw : Nat) (e : Entry) : Option SkiplistH :=
  let lvl := levelOf (draw % 2 ^ 31)
  let height := if lvl > s.height then s.height + 1 else s.height
  if height < maxHeight then
    some { height := height, elems := skInsert e s.elems }
  else none

/-- A sequence of Skiplist.Insert calls with the given PRNG outcomes. -/
def runInserts (s : SkiplistH) (draws : List Nat) : Option SkiplistH :=
  draws.foldl (fun acc d => acc.bind (fun t => t.insert d headEntry)) (some s)

/-- PRNG outcomes 2^1-1, 2^2-1, ..., 2^31-1: the draw for insert k has k
trailing set bits, so every insert raises the height by one. -/
def c6Draws : List Nat := (List.range 31).map (fun k => 2 ^ (k + 1) - 1)

/-- Inserting into the sorted hash slice grows its length by one. -/
theorem insertSorted_length (x : Nat) (l : List Nat) :
    (insertSorted x l).length = l.length + 1 := by
  induction l with
  | nil => rfl
  | cons y ys ih =>
    unfold insertSorted
    by_cases h : x ≤ y
    · simp [h]
    · simp [h, ih]

/-- SortHashes preserves the length of the hash slice. -/
theorem sortHashes_length (l : List Nat) : (sortHashes l).length = l.length := by
  induction l with
  | nil => rfl
  | cons y ys ih =>
    show (insertSorted y (sortHashes ys)).length = ys.length + 1
    rw [insertSorted_length, ih]

/-- getRoot succeeds on every non-empty trace. -/
theorem getRoot_isSome (trace : List Span) (h : trace ≠ []) :
    (getRoot trace).isSome = true := by
  unfold getRoot
  cases hf : trace.reverse.find? (fun sp => sp.ParentID == 0) with
  | some sp => rfl
  | none => simpa [List.getLast?_isSome] using h

/-- Witness trace and sampler states for the sampler theorems. -/
def sp0 : Span :=
  { TraceID := 1, ParentID := 0, Service := [], Name := [], Resource := [],
    Error := 0 }

/-- A one-span witness trace. -/
def trW : List Span := [sp0]

/-- Fresh sampler state with an empty last-seen map: sMin 0, theta 1,
jitter 0. -/
def st0 : SignatureSampler :=
  { lastTSBySignature := fun _ => none, sampledTraces := [], sMin := 0,
    theta := 1, jitter := 0 }

/-- Sampler state with jitter 1/2 and sMin 2, below 5 * (1 - jitter). -/
def stW : SignatureSampler :=
  { lastTSBySignature := fun _ => none, sampledTraces := [], sMin := 2,
    theta := 1, jitter := 1/2 }

/-- Sampler state with sMin 10, above every reachable first-seen score. -/
def stR : SignatureSampler :=
  { lastTSBySignature := fun _ => none, sampledTraces := [], sMin := 10,
    theta := 1, jitter := 0 }

/-- C5 counterexample: on the empty trace the sampler does not complete
normally.  getRoot falls through to the index access trace[len(trace)-1]
with length 0, ComputeSignature would additionally read spanHashes[0] of an
empty slice, and AddTrace propagates the failure; the claim asserts every
error branch is unreachable even for the empty trace. -/
theorem c5_empty_trace_panics :
    getRoot ([] : List Span) = none ∧
    computeSignature ([] : List Span) = none ∧
    AddTrace (fun x => x) st0 [] 0 0 = none := by
  exact ⟨rfl, rfl, rfl⟩

/-- C5 as amended: for every non-empty trace, ComputeSignature and AddTrace
complete without reaching an error branch (and Flush is total by
construction); only the empty trace defeats the claim. -/
theorem c5_nonempty_no_error (trace : List Span) (sq : ℚ → ℚ)
    (s : SignatureSampler) (now u : ℚ) (h : trace ≠ []) :
    (computeSignature trace).isSome = true ∧
    (AddTrace sq s trace now u).isSome = true := by
  have hsig : (computeSignature trace).isSome = true := by
    unfold computeSignature
    obtain ⟨root, hr⟩ := Option.isSome_iff_exists.mp (getRoot_isSome trace h)
    rw [hr]
    dsimp only
    cases hs : sortHashes (List.replicate trace.length 0 ++
        trace.map computeSpanHash) with
    | nil =>
      exfalso
      have hlen := sortHashes_length (List.replicate trace.length 0 ++
        trace.map computeSpanHash)
      rw [hs] at hlen
      simp [List.length_append] at hlen
      have hzero : trace.length = 0 := by omega
      exact h (List.length_eq_zero.mp hzero)
    | cons x xs => rfl
  refine ⟨hsig, ?_⟩
  obtain ⟨sig, hsig2⟩ := Option.isSome_iff_exists.mp hsig
  simp only [AddTrace, hsig2]
  by_cases hsc : GetScore sq s sig now u > s.sMin
  · rw [if_pos hsc]
    rfl
  · rw [if_neg hsc]
    rfl

/-- Witness for the amended C5 at the concrete one-span trace. -/
theorem c5_nonempty_no_error_witness :
    trW ≠ ([] : List Span) ∧
    ((computeSignature trW).isSome = true ∧
      (AddTrace (fun x => x) st0 trW 0 0).isSome = true) :=
  ⟨by decide, c5_nonempty_no_error trW (fun x => x) st0 0 0 (by decide)⟩

/-- C6: refuted on the code, which can exhaust the head pointer array.  Each
insert whose drawn level exceeds the current height raises the height by one
with no cap below maxHeight; after 30 such draws the height is 30 (still in
bounds), and on the 31st the descent starts at head.next[31] while head.next
has exactly maxHeight = 31 slots, an index-out-of-range panic.  The draws
2^k - 1 are valid rand.Int31 outcomes with k trailing set bits. -/
theorem c6_height_overflow :
    (runInserts { height := 0, elems := [] } (c6Draws.take 30)).map
      SkiplistH.height = some 30 ∧
    runInserts { height := 0, elems := [] } c6Draws = none := by
  exact ⟨by decide, by decide⟩

/-- C7: confirmed.  A malformed payload (the none parse outcome) makes both
decoders return the decode error before the receiver is assigned, so the
whole receiver state — hence every observable (N, skiplist chain, quantiles,
BySlices) — is unchanged; and whenever either decoder returns an error the
receiver equals its prior value. -/
theorem c7_decode_error_frame (s : Summary) :
    (s.UnmarshalJSON none).1.isSome = true ∧
    (s.UnmarshalJSON none).2 = s ∧
    (s.GobDecode none).1.isSome = true ∧
    (s.GobDecode none).2 = s ∧
    (∀ b err, (s.UnmarshalJSON b).1 = some err → (s.UnmarshalJSON b).2 = s) ∧
    (∀ b err, (s.GobDecode b).1 = some err → (s.GobDecode b).2 = s) := by
  refine ⟨rfl, rfl, rfl, rfl, ?_, ?_⟩
  · intro b err h
    cases b with
    | none => rfl
    | some w => simp [Summary.UnmarshalJSON] at h
  · intro b err h
    cases b with
    | none => rfl
    | some w => simp [Summary.GobDecode] at h

/-- Witness for C7 at a concrete receiver and the malformed payload. -/
theorem c7_decode_error_frame_witness :
    ((c2Summary.UnmarshalJSON none).1 = some "json unmarshal error") ∧
    (c2Summary.UnmarshalJSON none).2 = c2Summary :=
  ⟨rfl, (c7_decode_error_frame c2Summary).2.2.2.2.1 none "json unmarshal error" rfl⟩

/-- C8: confirmed.  A signature absent from the last-seen map scores
time_score 5; with jitter in the unit interval, u in the unit interval and
sMin below 5 * (1 - jitter), the jittered score 5 * (1 + jitter * (1 - 2u))
stays strictly above sMin, so AddTrace appends the trace to the buffer and
records the signature.  The statement holds for every square-root function
sq, in particular the float64 one. -/
theorem c8_first_seen_sampled (sq : ℚ → ℚ) (s : SignatureSampler)
    (trace : List Span) (now u : ℚ) (sig : Nat)
    (hsig : computeSignature trace = some sig)
    (hunseen : s.lastTSBySignature sig = none)
    (hj0 : 0 ≤ s.jitter) (hj1 : s.jitter ≤ 1)
    (hu0 : 0 ≤ u) (hu1 : u < 1)
    (hsm : s.sMin < 5 * (1 - s.jitter)) :
    GetTimeScore sq s sig now = 5 ∧
    GetScore sq s sig now u > s.sMin ∧
    AddTrace sq s trace now u =
      some { s with
        sampledTraces := s.sampledTraces ++ [trace],
        lastTSBySignature := fun x => if x = sig then some now
          else s.lastTSBySignature x } := by
  have hts : GetTimeScore sq s sig now = 5 := by
    unfold GetTimeScore
    rw [hunseen]
  have hscore : GetScore sq s sig now u > s.sMin := by
    unfold GetScore
    rw [hts]
    have hkey : 5 * (1 - s.jitter) ≤ 5 * (1 + s.jitter * (1 - 2 * u)) := by
      nlinarith [mul_nonneg hj0 (by linarith : (0:ℚ) ≤ 1 - u)]
    linarith
  refine ⟨hts, hscore, ?_⟩
  simp only [AddTrace, hsig]
  rw [if_pos hscore]

/-- Witness for C8: the one-span trace (signature 0) on a fresh map with
jitter 1/2, sMin 2 and u = 0. -/
theorem c8_first_seen_sampled_witness :
    (computeSignature trW = some 0 ∧ stW.lastTSBySignature 0 = none ∧
      (0:ℚ) ≤ stW.jitter ∧ stW.jitter ≤ 1 ∧ (0:ℚ) ≤ (0:ℚ) ∧ (0:ℚ) < 1 ∧
      stW.sMin < 5 * (1 - stW.jitter)) ∧
    (GetTimeScore (fun x => x) stW 0 0 = 5 ∧
      GetScore (fun x => x) stW 0 0 0 > stW.sMin ∧
      AddTrace (fun x => x) stW trW 0 0 =
        some { stW with
          sampledTraces := stW.sampledTraces ++ [trW],
          lastTSBySignature := fun x => if x = 0 then some 0
            else stW.lastTSBySignature x }) :=
  ⟨⟨by decide, rfl, by norm_num [stW], by norm_num [stW], le_refl 0,
      by norm_num, by norm_num [stW]⟩,
    c8_first_seen_sampled (fun x => x) stW trW 0 0 0 (by decide) rfl
      (by norm_num [stW]) (by norm_num [stW]) (le_refl 0) (by norm_num)
      (by norm_num [stW])⟩

/-- C9: confirmed.  Flush returns the buffer accumulated since the previous
flush, clears only the buffer, and leaves the last-seen map and tunables
untouched; each AddTrace either leaves the buffer alone or appends its trace
at the end, so the returned slice is exactly the accepted traces in append
order. -/
theorem c9_flush_frame (s : SignatureSampler) :
    (Flush s).1 = s.sampledTraces ∧
    (Flush s).2.sampledTraces = [] ∧
    (Flush s).2.lastTSBySignature = s.lastTSBySignature ∧
    (Flush s).2.sMin = s.sMin ∧
    (Flush s).2.theta = s.theta ∧
    (Flush s).2.jitter = s.jitter ∧
    (∀ sq trace now u s2, AddTrace sq s trace now u = some s2 →
      s2.sampledTraces = s.sampledTraces ∨
        s2.sampledTraces = s.sampledTraces ++ [trace]) := by
  refine ⟨rfl, rfl, rfl, rfl, rfl, rfl, ?_⟩
  intro sq trace now u s2 hadd
  cases hc : computeSignature trace with
  | none =>
    simp only [AddTrace, hc] at hadd
    exact Option.noConfusion hadd
  | some sig =>
    simp only [AddTrace, hc] at hadd
    by_cases hsc : GetScore sq s sig now u > s.sMin
    · rw [if_pos hsc] at hadd
      right
      cases hadd
      rfl
    · rw [if_neg hsc] at hadd
      left
      cases hadd
      rfl

/-- Witness for C9 at a concrete state, discharging the AddTrace hypothesis
of the append conjunct with a rejected trace. -/
theorem c9_flush_frame_witness :
    (Flush stR).1 = stR.sampledTraces ∧
    (AddTrace (fun x => x) stR trW 0 0 = some stR) ∧
    (stR.sampledTraces = stR.sampledTraces ∨
      stR.sampledTraces = stR.sampledTraces ++ [trW]) := by
  have hadd : AddTrace (fun x => x) stR trW 0 0 = some stR := by
    simp only [AddTrace, show computeSignature trW = some 0 from by decide]
    rw [if_neg]
    norm_num [GetScore, GetTimeScore, stR]
  exact ⟨(c9_flush_frame stR).1, hadd,
    (c9_flush_frame stR).2.2.2.2.2.2 (fun x => x) trW 0 0 stR hadd⟩

/-- C10: confirmed.  When the computed score does not exceed sMin, AddTrace
returns with the state it started from: the trace is not buffered and the
last-seen time of its signature is not refreshed, so future time scores are
unaffected by the rejected observation. -/
theorem c10_rejected_no_mutation (sq : ℚ → ℚ) (s : SignatureSampler)
    (trace : List Span) (now u : ℚ) (sig : Nat)
    (hsig : computeSignature trace = some sig)
    (hscore : GetScore sq s sig now u ≤ s.sMin) :
    AddTrace sq s trace now u = some s := by
  simp only [AddTrace, hsig]
  rw [if_neg (not_lt.mpr hscore)]

/-- Witness for C10: the one-span trace scored 5 against sMin 10 is rejected
and the state is returned unchanged. -/
theorem c10_rejected_no_mutation_witness :
    (computeSignature trW = some 0 ∧
      GetScore (fun x => x) stR 0 0 0 ≤ stR.sMin) ∧
    AddTrace (fun x => x) stR trW 0 0 = some stR :=
  ⟨⟨by decide, by norm_num [GetScore, GetTimeScore, stR]⟩,
    c10_rejected_no_mutation (fun x => x) stR trW 0 0 0 (by decide)
      (by norm_num [GetScore, GetTimeScore, stR])⟩
